import Mathlib

/-!
# Verification of the banko-ai-assistant semantic caching engine

This file gives a shallow embedding of the semantic caching engine of the
banko-ai-assistant-rag-demo repository and of its callers in
`watsonx/watsonx.py` and `app.py`, and proves the frozen claims about it.

The cache engine itself (`cache_manager.py` / `banko_ai/utils/cache_manager.py`)
is not part of the provided sources; only its callers and its tests are.  Its
operations are therefore modelled from the specification (each such definition
carries a doc comment starting with `Modelled from the spec:`).  The callers
(`search_expenses`, `RAG_response`, the `/cache-stats` endpoint) are translated
from the source files.

Modelling conventions:
* machine floats for monetary amounts are modelled as integer cents;
* embedding vectors are lists of rationals, distances are rationals;
* the SHA-256 digest of the normalized serialized input is modelled as the
  canonical normalized value itself, i.e. as an ideal collision-free digest;
* Python `raise`/`except` is modelled with `Except`;
* wall-clock time is a natural number carried in the cache state.
-/

set_option autoImplicit false

namespace Banko

/-- An embedding vector (the repository uses 384-dimensional float vectors;
coordinates are modelled as rationals). -/
abbrev Vec := List ℚ

/-- An expense row as returned by the vector search
(`watsonx/watsonx.py`, `search_expenses` SQL query): stable identifying fields,
optional categorical fields, and the volatile retrieval score
`similarity_score` attached by the `embedding <-> :search_embedding` distance.
Monetary amounts are modelled as integer cents. -/
structure ExpenseRecord where
  expense_id : String
  description : String
  merchant : String
  expense_amount : Int
  shopping_type : Option String
  payment_method : Option String
  similarity_score : Option ℚ
deriving DecidableEq, Repr

/-- Whether a character counts as whitespace for Python's `str.split()`. -/
def isPyWhitespace (c : Char) : Bool :=
  c = ' ' || c = '\t' || c = '\n' || c = '\r' || c = '\x0c' || c = '\x0b'

/-- Helper for `pyWords`: split a character list at whitespace runs,
accumulating the current (reversed) word. -/
def pyWordsAux : List Char → List Char → List String
  | [], [] => []
  | [], acc => [String.mk acc.reverse]
  | c :: cs, acc =>
      if isPyWhitespace c then
        if acc.isEmpty then pyWordsAux cs []
        else String.mk acc.reverse :: pyWordsAux cs []
      else pyWordsAux cs (c :: acc)

/-- Python's `s.split()` with no separator argument: the maximal
whitespace-free words of `s`, in order, with no empty words. -/
def pyWords (s : String) : List String :=
  pyWordsAux s.data []

/-- Modelled from the spec: `normalizeText` trims and canonicalizes
whitespace without folding case (§4.1); modelled as rejoining the
whitespace-separated words with single spaces. -/
def normalizeText (s : String) : String :=
  String.intercalate " " (pyWords s)

/-- Modelled from the spec: the sentinel substituted for a missing optional
field by `normalizeContext` (§4.1). -/
def missingFieldSentinel : String := "N/A"

/-- A context record after normalization: the volatile `similarity_score`
is stripped, stable fields are kept in order, and missing optional fields
are replaced by the sentinel. -/
structure NormRecord where
  expense_id : String
  description : String
  merchant : String
  expense_amount : Int
  shopping_type : String
  payment_method : String
deriving DecidableEq, Repr

/-- Modelled from the spec: per-record normalization performed by
`normalizeContext` (§4.1): strip the similarity/distance score, keep the
stable fields in order, substitute the sentinel for missing optional
fields. -/
def normalizeRecord (r : ExpenseRecord) : NormRecord :=
  { expense_id := r.expense_id
    description := r.description
    merchant := r.merchant
    expense_amount := r.expense_amount
    shopping_type := r.shopping_type.getD missingFieldSentinel
    payment_method := r.payment_method.getD missingFieldSentinel }

/-- Modelled from the spec: `normalizeContext` (§4.1) normalizes each record,
preserving list order across records. -/
def normalizeContext (rs : List ExpenseRecord) : List NormRecord :=
  rs.map normalizeRecord

/-- Modelled from the spec: the digest of the normalized context produced by
`generateHash` (§4.1).  The fixed-length cryptographic digest of the
serialized normalized value is modelled as the canonical normalized value
itself, i.e. as an ideal collision-free digest. -/
def contextDigest (rs : List ExpenseRecord) : List NormRecord :=
  normalizeContext rs

/-- A record with its volatile similarity/distance score removed; two record
lists "differ only in their scores" when their `stripScore` images agree. -/
def stripScore (r : ExpenseRecord) : ExpenseRecord :=
  { r with similarity_score := none }

/-- Modelled from the spec: the strict response-cache key,
`hash(normalizeText(prompt) + normalizeContext(contextRecords) + provider)`
(§4.4); the digest is modelled as the canonical normalized triple itself
(an ideal collision-free digest). -/
structure ResponseKey where
  promptPart : String
  contextPart : List NormRecord
  providerPart : String
deriving DecidableEq, Repr

/-- The strict response-cache key of a `(prompt, contextRecords, provider)`
triple. -/
def responseKey (prompt : String) (ctx : List ExpenseRecord) (provider : String) :
    ResponseKey :=
  { promptPart := normalizeText prompt
    contextPart := normalizeContext ctx
    providerPart := provider }

/-- Per-cache-type monotonic counters kept by the stats recorder (§4.5). -/
structure TypeStats where
  hits : ℕ
  misses : ℕ
  writes : ℕ
  tokensSaved : ℕ
deriving DecidableEq, Repr

/-- All-zero counters. -/
def TypeStats.zero : TypeStats := ⟨0, 0, 0, 0⟩

/-- An entry of the `embedding_cache` store: normalized-text key, stored
vector, creation and expiry timestamps. -/
structure EmbeddingEntry where
  key : String
  vec : Vec
  created_at : ℕ
  expires_at : ℕ
deriving DecidableEq, Repr

/-- An entry of the `vector_search_cache` store: the query embedding, the
full ranked result list, the similarity threshold active at write time, and
timestamps. -/
structure VectorEntry where
  emb : Vec
  results : List ExpenseRecord
  thresholdAtWrite : ℚ
  created_at : ℕ
  expires_at : ℕ
deriving DecidableEq, Repr

/-- An entry of the `response_cache` store: the strict key, the cached
response text, the stored token estimates, and timestamps. -/
structure ResponseEntry where
  key : ResponseKey
  response : String
  prompt_tokens : ℕ
  response_tokens : ℕ
  created_at : ℕ
  expires_at : ℕ
deriving DecidableEq, Repr

/-- Modelled from the spec: the state of the cache engine — the three
logical stores, per-type counters, the current time, and the configuration
(`similarity_threshold`, `cache_ttl_hours`) (§2, §6). -/
structure CacheState where
  embStore : List EmbeddingEntry
  vecStore : List VectorEntry
  respStore : List ResponseEntry
  embStats : TypeStats
  vecStats : TypeStats
  respStats : TypeStats
  now : ℕ
  threshold : ℚ
  ttl : ℕ
deriving DecidableEq, Repr

/-- The empty cache state with default configuration
(`similarity_threshold = 0.75`, `cache_ttl_hours = 24`). -/
def emptyState : CacheState :=
  { embStore := []
    vecStore := []
    respStore := []
    embStats := TypeStats.zero
    vecStats := TypeStats.zero
    respStats := TypeStats.zero
    now := 0
    threshold := 3 / 4
    ttl := 24 }

/-! ## Stats recording (spec §4.5) -/

/-- `recordHit` on a per-type counter record. -/
def TypeStats.recordHit (s : TypeStats) : TypeStats := { s with hits := s.hits + 1 }

/-- `recordMiss` on a per-type counter record. -/
def TypeStats.recordMiss (s : TypeStats) : TypeStats := { s with misses := s.misses + 1 }

/-- `recordWrite` on a per-type counter record. -/
def TypeStats.recordWrite (s : TypeStats) (tokensSaved : ℕ) : TypeStats :=
  { s with writes := s.writes + 1, tokensSaved := s.tokensSaved + tokensSaved }

/-- Record a hit for the embedding cache. -/
def recordEmbHit (st : CacheState) : CacheState :=
  { st with embStats := st.embStats.recordHit }

/-- Record a miss for the embedding cache. -/
def recordEmbMiss (st : CacheState) : CacheState :=
  { st with embStats := st.embStats.recordMiss }

/-- Record a hit for the vector-search cache. -/
def recordVecHit (st : CacheState) : CacheState :=
  { st with vecStats := st.vecStats.recordHit }

/-- Record a miss for the vector-search cache. -/
def recordVecMiss (st : CacheState) : CacheState :=
  { st with vecStats := st.vecStats.recordMiss }

/-! ## Embedding cache (spec §4.2) -/

/-- The predicate selecting a live embedding-cache entry for a key: exact
key match, not expired (entries with `expires_at < now` are stale, §4.5). -/
def embLive (now : ℕ) (key : String) (e : EmbeddingEntry) : Bool :=
  decide (e.key = key) && decide (now ≤ e.expires_at)

/-- Upsert an embedding entry: overwrite any entry with the same key
(spec §3: a write to an existing key is an upsert, never a duplicate row),
with TTL expiry. -/
def writeEmbedding (st : CacheState) (key : String) (v : Vec) : CacheState :=
  { st with
    embStore :=
      { key := key, vec := v, created_at := st.now, expires_at := st.now + st.ttl } ::
        st.embStore.filter (fun e => !decide (e.key = key))
    embStats := st.embStats.recordWrite 0 }

/-- Modelled from the spec: `getOrCompute(text)` of the EmbeddingCache
(§4.2): compute `key = hash(normalizeText(text))`; on a live matching entry
return its stored vector unchanged and record a hit; on miss invoke the
embedding model, store the vector with TTL, record a miss and a write, and
return the fresh vector.  The embedding model here is a total function
(the fallible variant is `getOrComputeEmbeddingE`). -/
def getOrComputeEmbedding (st : CacheState) (embed : String → Vec) (t : String) :
    Vec × CacheState :=
  match st.embStore.find? (embLive st.now (normalizeText t)) with
  | some e => (e.vec, recordEmbHit st)
  | none => (embed t, writeEmbedding (recordEmbMiss st) (normalizeText t) (embed t))

/-- Modelled from the spec: `getOrCompute(text)` with a fallible embedding
model (§4.2): if the embedding model call fails, the failure propagates to
the caller unchanged and nothing is cached. -/
def getOrComputeEmbeddingE (st : CacheState) (embed : String → Except String Vec)
    (t : String) : Except String (Vec × CacheState) :=
  match st.embStore.find? (embLive st.now (normalizeText t)) with
  | some e => .ok (e.vec, recordEmbHit st)
  | none =>
      match embed t with
      | .error msg => .error msg
      | .ok v => .ok (v, writeEmbedding (recordEmbMiss st) (normalizeText t) v)

/-! ## Vector-search cache (spec §4.3) -/

/-- Modelled from the spec: the distance between two embeddings.  The
concrete metric is not fixed by the sources; squared Euclidean distance over
rational coordinates stands in for it. -/
def embDistance (u v : Vec) : ℚ :=
  ((List.zipWith (fun a b => (a - b) * (a - b)) u v).foldr (· + ·) 0)

/-- `a` beats `b` as nearest entry to `q`: strictly smaller distance, or
equal distance with a more recent `created_at` (spec §4.3: ties on distance
are broken by most-recently-created entry). -/
def betterVec (q : Vec) (a b : VectorEntry) : Bool :=
  decide (embDistance a.emb q < embDistance b.emb q) ||
    (decide (embDistance a.emb q = embDistance b.emb q) &&
      decide (b.created_at < a.created_at))

/-- The entry of the list whose stored embedding has minimum distance to
`q`, ties broken by most-recently-created entry. -/
def nearestVec (q : Vec) : List VectorEntry → Option VectorEntry
  | [] => none
  | e :: es =>
      match nearestVec q es with
      | none => some e
      | some b => if betterVec q e b then some e else some b

/-- The live (non-expired) entries of the vector-search store. -/
def liveVecEntries (st : CacheState) : List VectorEntry :=
  st.vecStore.filter (fun e => decide (st.now ≤ e.expires_at))

/-- Modelled from the spec: `lookup(queryEmbedding, limit)` of the
VectorSearchCache (§4.3): among live entries find the one with minimum
distance to the query; if that distance is within `similarity_threshold`
and the entry stores at least `limit` results, return its results truncated
to `limit`, else miss. -/
def lookupVectorSearch (st : CacheState) (q : Vec) (limit : ℕ) :
    Option (List ExpenseRecord) :=
  match nearestVec q (liveVecEntries st) with
  | none => none
  | some e =>
      if embDistance e.emb q ≤ st.threshold ∧ limit ≤ e.results.length then
        some (e.results.take limit)
      else none

/-- Modelled from the spec: the stateful `get_cached_vector_search` wrapper,
which also updates the stats recorder (§2). -/
def get_cached_vector_search (st : CacheState) (q : Vec) (limit : ℕ) :
    Option (List ExpenseRecord) × CacheState :=
  match lookupVectorSearch st q limit with
  | some rs => (some rs, recordVecHit st)
  | none => (none, recordVecMiss st)

/-- Modelled from the spec: `put(queryEmbedding, limit, results)` of the
VectorSearchCache (§4.3), called `cache_vector_search_results` by the
callers: store the embedding, the full ranked result list, and the
threshold active at write time, with TTL expiry. -/
def cache_vector_search_results (st : CacheState) (q : Vec)
    (results : List ExpenseRecord) : CacheState :=
  { st with
    vecStore :=
      { emb := q, results := results, thresholdAtWrite := st.threshold
        created_at := st.now, expires_at := st.now + st.ttl } :: st.vecStore
    vecStats := st.vecStats.recordWrite 0 }

/-! ## Response cache (spec §4.4) -/

/-- The predicate selecting a live response-cache entry for a key. -/
def respLive (now : ℕ) (k : ResponseKey) (e : ResponseEntry) : Bool :=
  decide (e.key = k) && decide (now ≤ e.expires_at)

/-- Modelled from the spec: the strict-mode `lookup(prompt, contextRecords,
provider)` of the ResponseCache (§4.4): compute the strict key and require
an exact live match. -/
def lookupResponseStrict (st : CacheState) (prompt : String)
    (ctx : List ExpenseRecord) (provider : String) : Option String :=
  (st.respStore.find? (respLive st.now (responseKey prompt ctx provider))).map
    (fun e => e.response)

/-- Upsert a response entry under the strict key (spec §4.4: `put` always
stores under the strict key; §3: upsert, never a duplicate row). -/
def writeResponse (st : CacheState) (prompt response : String)
    (ctx : List ExpenseRecord) (provider : String)
    (prompt_tokens response_tokens : ℕ) : CacheState :=
  let k := responseKey prompt ctx provider
  { st with
    respStore :=
      { key := k, response := response, prompt_tokens := prompt_tokens
        response_tokens := response_tokens, created_at := st.now
        expires_at := st.now + st.ttl } ::
        st.respStore.filter (fun e => !decide (e.key = k))
    respStats := st.respStats.recordWrite 0 }

/-- Modelled from the spec: `get_cached_response` at the storage boundary
(§4.4, §7): a storage error during lookup is caught internally, logged, and
treated as a miss.  `fault = some msg` means the storage read raised
`msg`. -/
def get_cached_response (st : CacheState) (fault : Option String)
    (prompt : String) (ctx : List ExpenseRecord) (provider : String) :
    Option String :=
  match fault with
  | some _ => none
  | none => lookupResponseStrict st prompt ctx provider

/-- Modelled from the spec: `cache_response` at the storage boundary
(§4.4, §7): a storage error during the write is caught internally, logged,
and treated as a no-op.  `fault = some msg` means the storage write raised
`msg`. -/
def cache_response (st : CacheState) (fault : Option String)
    (prompt response : String) (ctx : List ExpenseRecord) (provider : String)
    (prompt_tokens response_tokens : ℕ) : CacheState :=
  match fault with
  | some _ => st
  | none => writeResponse st prompt response ctx provider prompt_tokens response_tokens

/-! ## The callers in `watsonx/watsonx.py` (translated from the source) -/

/-- The token estimate of `RAG_response` (watsonx.py lines 458-460):
`int(len(text.split()) * 1.3)`, i.e. the integer part of the
whitespace-separated word count times 1.3.  (For every realistic word
count the binary-float product `n * 1.3` truncates to `13 * n / 10`.) -/
def tokenEstimate (s : String) : ℕ :=
  13 * (pyWords s).length / 10

/-- The fallback message of `RAG_response`'s exception handler
(watsonx.py line 473). -/
def apologyMessage (err : String) : String :=
  "I apologize, but I'm experiencing technical difficulties. Please try again later. (Error: " ++ err ++ ")"

/-- The enhanced prompt `RAG_response` builds when `search_results` is empty
(watsonx.py lines 412-441): insights and budget recommendations are empty
and the data section is the fixed no-records sentence. -/
def enhancedPromptNoResults (prompt : String) : String :=
  "You are Banko, a financial assistant. Answer based on this expense data:\n\nQ: " ++
    prompt ++
    "\n\nData:\nNo specific expense records found for this query.\n\n\n\nProvide helpful insights with numbers, markdown formatting, and actionable advice."

/-- Python truthiness of an optional string (`if cached_response:`):
`None` and the empty string are falsy. -/
def truthyStr : Option String → Bool
  | some s => !s.isEmpty
  | none => false

/-- Storage faults injected at the cache's storage boundary during one
request: `none` means the storage operation succeeds. -/
structure Faults where
  lookupFault : Option String
  writeFault : Option String

/-- No storage faults. -/
def Faults.none : Faults := ⟨Option.none, Option.none⟩

/-- The outcome of one `RAG_response` call: the value returned to the
caller (`.error` would mean an uncaught exception), the cache state after
the call, and whether the response cache hit. -/
structure RagRun where
  result : Except String String
  state : CacheState
  cacheHit : Bool
deriving Repr

/-- `RAG_response(prompt, search_results)` of watsonx.py lines 371-473 with
a cache manager present: probe the response cache (a truthy cached response
is returned as a hit); on miss call the language model on the enhanced
prompt; on success cache the fresh response with heuristic token counts and
return it; an exception from the model is caught and turned into an apology
message, and nothing is cached.  `enhanced` is the enhanced prompt built
from the user prompt and the search results (its construction — insight
formatting and regex categorization — is glue outside the cache engine, so
it is passed in; for empty `results` it is `enhancedPromptNoResults prompt`),
and `llm` is the outcome of `call_watsonx_api` on `enhanced`. -/
def RAG_responseRun (st : CacheState) (f : Faults) (prompt : String)
    (results : List ExpenseRecord) (enhanced : String)
    (llm : Except String String) : RagRun :=
  let cached := get_cached_response st f.lookupFault prompt results "watsonx"
  if truthyStr cached then
    { result := .ok (cached.getD ""), state := st, cacheHit := true }
  else
    match llm with
    | .error e => { result := .ok (apologyMessage e), state := st, cacheHit := false }
    | .ok response =>
        let st' :=
          if response.isEmpty then st
          else
            cache_response st f.writeFault prompt response results "watsonx"
              (tokenEstimate enhanced) (tokenEstimate response)
        { result := .ok response, state := st', cacheHit := false }

/-- The outcome of one `search_expenses` call: the value returned to the
caller (`.error` means an uncaught exception), the cache state after the
call, whether the vector-search cache hit, and whether the database query
was executed. -/
structure SearchRun where
  result : Except String (List ExpenseRecord)
  state : CacheState
  vecCacheHit : Bool
  dbQueried : Bool
deriving Repr

/-- The tail of `search_expenses` after the cache miss (watsonx.py lines
158-173): run the database query; on failure the exception is caught and an
empty list returned; on success the results are cached only when non-empty,
and returned. -/
def searchAfterDb (st : CacheState) (q : Vec)
    (db : Except String (List ExpenseRecord)) : SearchRun :=
  match db with
  | .error _ => { result := .ok [], state := st, vecCacheHit := false, dbQueried := true }
  | .ok rows =>
      if rows.isEmpty then
        { result := .ok rows, state := st, vecCacheHit := false, dbQueried := true }
      else
        { result := .ok rows, state := cache_vector_search_results st q rows
          vecCacheHit := false, dbQueried := true }

/-- `search_expenses(query, limit)` of watsonx.py lines 106-173 (the AWS
Bedrock provider's `search_expenses` in `aws_bedrock.py` lines 34-90 is the
same code) with a cache manager present: get the query embedding through
the embedding cache (an embedding failure propagates); probe the
vector-search cache and return a truthy cached list truncated to `limit`;
on miss run the database query via `searchAfterDb`.  `db` is the outcome of
the vector-similarity SQL query for this embedding and limit. -/
def search_expensesRun (st : CacheState) (embed : String → Except String Vec)
    (db : Except String (List ExpenseRecord)) (query : String) (limit : ℕ) :
    SearchRun :=
  match getOrComputeEmbeddingE st embed query with
  | .error e => { result := .error e, state := st, vecCacheHit := false, dbQueried := false }
  | .ok (v, st1) =>
      match get_cached_vector_search st1 v limit with
      | (some rs, st2) =>
          if rs.isEmpty then searchAfterDb st2 v db
          else { result := .ok (rs.take limit), state := st2
                 vecCacheHit := true, dbQueried := false }
      | (none, st2) => searchAfterDb st2 v db

/-- The embedding-cache status probe of `search_expenses_with_cache_info`
(watsonx.py lines 494-508): a storage read that raises is caught by the
bare `except` and reported as a miss. -/
def embeddingCacheStatus (read : Except String (Option Vec)) : String :=
  match read with
  | .error _ => "miss"
  | .ok Option.none => "miss"
  | .ok (some _) => "hit"

/-! ## The stats window (spec §4.5) and the `/cache-stats` endpoint (`app.py`) -/

/-- Modelled from the spec: the per-type hit rate reported by `getStats`
(§4.5): `hits / (hits + misses)`, defined as 0 when the denominator is 0. -/
def hitRate (s : TypeStats) : ℚ :=
  if s.hits + s.misses = 0 then 0 else (s.hits : ℚ) / ((s.hits : ℚ) + (s.misses : ℚ))

/-- Modelled from the spec: the dictionary returned by
`get_cache_stats(hours)` — per-type counters for the three cache types plus
the aggregate `total_tokens_saved` (§4.5, §6). -/
structure CacheStatsReport where
  embedding : TypeStats
  vector_search : TypeStats
  response : TypeStats
  total_tokens_saved : ℕ
deriving DecidableEq, Repr

/-- Round a rational to `d` decimal places, to the nearest value (Python's
`round` breaks ties to even; every tie-free case agrees with `round`, and
the quantities this file evaluates it on are never ties). -/
def roundToPlaces (d : ℕ) (q : ℚ) : ℚ :=
  (round (q * (10 : ℚ) ^ d) : ℤ) / (10 : ℚ) ^ d

/-- The body of the `/cache-stats` response of `app.py` lines 299-333:
`total_requests` and `total_hits` sum `hits + misses` resp. `hits` over the
non-`total_tokens_saved` keys of the stats dictionary; the overall hit rate
is reported as a percentage rounded to 2 places; the estimated cost saving
is `round(total_tokens_saved * 0.00002, 4)`. -/
structure StatsEndpointResponse where
  total_requests : ℕ
  total_hits : ℕ
  overall_hit_rate_percent : ℚ
  total_tokens_saved : ℕ
  estimated_cost_savings_usd : ℚ
deriving DecidableEq, Repr

/-- The overall-metrics computation of the `/cache-stats` endpoint
(`app.py` lines 305-331, `cache_stats`). -/
def cacheStatsResponse (r : CacheStatsReport) : StatsEndpointResponse :=
  let total_requests :=
    (r.embedding.hits + r.embedding.misses) + (r.vector_search.hits + r.vector_search.misses) +
      (r.response.hits + r.response.misses)
  let total_hits := r.embedding.hits + r.vector_search.hits + r.response.hits
  let overall_hit_rate : ℚ :=
    if 0 < total_requests then (total_hits : ℚ) / (total_requests : ℚ) else 0
  { total_requests := total_requests
    total_hits := total_hits
    overall_hit_rate_percent := roundToPlaces 2 (overall_hit_rate * 100)
    total_tokens_saved := r.total_tokens_saved
    estimated_cost_savings_usd :=
      roundToPlaces 4 ((r.total_tokens_saved : ℚ) * (2 / 100000)) }

/-- Fold a sequence of embedding-cache lookups (`getOrComputeEmbedding`)
over the state, one text after the other. -/
def runEmbeddingLookups (embed : String → Vec) : CacheState → List String → CacheState
  | st, [] => st
  | st, t :: ts => runEmbeddingLookups embed (getOrComputeEmbedding st embed t).2 ts

/-! ## Helper lemmas -/

@[simp] theorem recordEmbHit_embStore (st : CacheState) :
    (recordEmbHit st).embStore = st.embStore := rfl

@[simp] theorem recordEmbHit_vecStore (st : CacheState) :
    (recordEmbHit st).vecStore = st.vecStore := rfl

@[simp] theorem recordEmbHit_respStore (st : CacheState) :
    (recordEmbHit st).respStore = st.respStore := rfl

@[simp] theorem recordEmbHit_now (st : CacheState) : (recordEmbHit st).now = st.now := rfl

@[simp] theorem recordEmbHit_threshold (st : CacheState) :
    (recordEmbHit st).threshold = st.threshold := rfl

@[simp] theorem recordEmbHit_ttl (st : CacheState) : (recordEmbHit st).ttl = st.ttl := rfl

@[simp] theorem recordEmbHit_hits (st : CacheState) :
    (recordEmbHit st).embStats.hits = st.embStats.hits + 1 := rfl

@[simp] theorem recordEmbHit_misses (st : CacheState) :
    (recordEmbHit st).embStats.misses = st.embStats.misses := rfl

@[simp] theorem recordEmbMiss_embStore (st : CacheState) :
    (recordEmbMiss st).embStore = st.embStore := rfl

@[simp] theorem recordEmbMiss_now (st : CacheState) : (recordEmbMiss st).now = st.now := rfl

@[simp] theorem recordEmbMiss_ttl (st : CacheState) : (recordEmbMiss st).ttl = st.ttl := rfl

@[simp] theorem recordEmbMiss_hits (st : CacheState) :
    (recordEmbMiss st).embStats.hits = st.embStats.hits := rfl

@[simp] theorem recordEmbMiss_misses (st : CacheState) :
    (recordEmbMiss st).embStats.misses = st.embStats.misses + 1 := rfl

@[simp] theorem recordEmbMiss_vecStore (st : CacheState) :
    (recordEmbMiss st).vecStore = st.vecStore := rfl

@[simp] theorem recordEmbMiss_threshold (st : CacheState) :
    (recordEmbMiss st).threshold = st.threshold := rfl

@[simp] theorem writeEmbedding_vecStore (st : CacheState) (k : String) (v : Vec) :
    (writeEmbedding st k v).vecStore = st.vecStore := rfl

@[simp] theorem writeEmbedding_respStore (st : CacheState) (k : String) (v : Vec) :
    (writeEmbedding st k v).respStore = st.respStore := rfl

@[simp] theorem writeEmbedding_now (st : CacheState) (k : String) (v : Vec) :
    (writeEmbedding st k v).now = st.now := rfl

@[simp] theorem writeEmbedding_threshold (st : CacheState) (k : String) (v : Vec) :
    (writeEmbedding st k v).threshold = st.threshold := rfl

@[simp] theorem writeEmbedding_ttl (st : CacheState) (k : String) (v : Vec) :
    (writeEmbedding st k v).ttl = st.ttl := rfl

@[simp] theorem writeEmbedding_embStore (st : CacheState) (k : String) (v : Vec) :
    (writeEmbedding st k v).embStore =
      { key := k, vec := v, created_at := st.now, expires_at := st.now + st.ttl } ::
        st.embStore.filter (fun e => !decide (e.key = k)) := rfl

@[simp] theorem writeEmbedding_hits (st : CacheState) (k : String) (v : Vec) :
    (writeEmbedding st k v).embStats.hits = st.embStats.hits := rfl

@[simp] theorem writeEmbedding_misses (st : CacheState) (k : String) (v : Vec) :
    (writeEmbedding st k v).embStats.misses = st.embStats.misses := rfl

@[simp] theorem recordVecHit_embStore (st : CacheState) :
    (recordVecHit st).embStore = st.embStore := rfl

@[simp] theorem recordVecHit_vecStore (st : CacheState) :
    (recordVecHit st).vecStore = st.vecStore := rfl

@[simp] theorem recordVecHit_now (st : CacheState) : (recordVecHit st).now = st.now := rfl

@[simp] theorem recordVecHit_threshold (st : CacheState) :
    (recordVecHit st).threshold = st.threshold := rfl

@[simp] theorem recordVecMiss_embStore (st : CacheState) :
    (recordVecMiss st).embStore = st.embStore := rfl

@[simp] theorem recordVecMiss_vecStore (st : CacheState) :
    (recordVecMiss st).vecStore = st.vecStore := rfl

@[simp] theorem recordVecMiss_now (st : CacheState) : (recordVecMiss st).now = st.now := rfl

@[simp] theorem recordVecMiss_threshold (st : CacheState) :
    (recordVecMiss st).threshold = st.threshold := rfl

@[simp] theorem recordVecMiss_ttl (st : CacheState) : (recordVecMiss st).ttl = st.ttl := rfl

@[simp] theorem recordVecHit_ttl (st : CacheState) : (recordVecHit st).ttl = st.ttl := rfl

@[simp] theorem cache_vector_search_results_now (st : CacheState) (q : Vec)
    (rows : List ExpenseRecord) : (cache_vector_search_results st q rows).now = st.now := rfl

/-- Normalization ignores the volatile score: normalizing a record equals
normalizing its score-stripped form. -/
theorem normalizeRecord_stripScore (r : ExpenseRecord) :
    normalizeRecord (stripScore r) = normalizeRecord r := rfl

/-- The normalized context factors through `stripScore`. -/
theorem normalizeContext_eq_map_stripScore (rs : List ExpenseRecord) :
    normalizeContext rs = (rs.map stripScore).map normalizeRecord := by
  simp only [normalizeContext, List.map_map]
  rfl

/-! ## Claims -/

/-- C4: for every list of context records, the digest of the normalized
records is invariant under changes to the volatile similarity/distance
score: two record lists that agree after stripping their scores hash to the
same digest. -/
theorem C4_digest_invariant_under_scores (rs1 rs2 : List ExpenseRecord)
    (h : rs1.map stripScore = rs2.map stripScore) :
    contextDigest rs1 = contextDigest rs2 := by
  unfold contextDigest
  rw [normalizeContext_eq_map_stripScore, normalizeContext_eq_map_stripScore, h]

/-- C4 witness: two concrete one-record lists differing only in
`similarity_score` have the same context digest. -/
theorem C4_digest_invariant_under_scores_witness :
    contextDigest
        [{ expense_id := "1", description := "latte", merchant := "Starbucks"
           expense_amount := 452, shopping_type := some "Restaurants"
           payment_method := some "credit", similarity_score := some (1 / 10) }] =
      contextDigest
        [{ expense_id := "1", description := "latte", merchant := "Starbucks"
           expense_amount := 452, shopping_type := some "Restaurants"
           payment_method := some "credit", similarity_score := some (7 / 10) }] :=
  C4_digest_invariant_under_scores _ _ rfl

/-- C1: in strict mode, `lookupResponse` returns a cached text (non-miss)
iff a live (non-expired) entry exists whose key equals the hash of the
normalized `(prompt, context, provider)` triple; and changing a single
monetary amount in the context records changes the key, so that after
caching a response for the original context the lookup with the changed
context is a miss. -/
theorem C1_strict_lookup_iff :
    (∀ (st : CacheState) (p : String) (ctx : List ExpenseRecord) (prov : String),
      (lookupResponseStrict st p ctx prov).isSome ↔
        ∃ e ∈ st.respStore, e.key = responseKey p ctx prov ∧ st.now ≤ e.expires_at)
    ∧ (∀ (st : CacheState) (p resp : String) (ctx : List ExpenseRecord) (prov : String)
        (pt rt : ℕ) (i : ℕ) (r : ExpenseRecord) (a : Int),
        st.respStore = [] → ctx[i]? = some r → a ≠ r.expense_amount →
        responseKey p (ctx.set i { r with expense_amount := a }) prov ≠
            responseKey p ctx prov ∧
          lookupResponseStrict (writeResponse st p resp ctx prov pt rt) p
            (ctx.set i { r with expense_amount := a }) prov = none) := by
  constructor
  · intro st p ctx prov
    unfold lookupResponseStrict
    rw [Option.isSome_map', List.find?_isSome]
    simp [respLive]
  · intro st p resp ctx prov pt rt i r a hstore hget hne
    have hlen : i < ctx.length := by
      have := List.getElem?_eq_some_iff.mp hget
      exact this.1
    have hkey : responseKey p (ctx.set i { r with expense_amount := a }) prov ≠
        responseKey p ctx prov := by
      intro hk
      have hctx : normalizeContext (ctx.set i { r with expense_amount := a }) =
          normalizeContext ctx := congrArg ResponseKey.contextPart hk
      have h1 : (normalizeContext (ctx.set i { r with expense_amount := a }))[i]? =
          some (normalizeRecord { r with expense_amount := a }) := by
        unfold normalizeContext
        rw [List.getElem?_map, List.getElem?_set_self hlen]
        rfl
      have h2 : (normalizeContext ctx)[i]? = some (normalizeRecord r) := by
        unfold normalizeContext
        rw [List.getElem?_map, hget]
        rfl
      rw [hctx, h2] at h1
      have h3 : normalizeRecord r = normalizeRecord { r with expense_amount := a } :=
        Option.some.inj h1
      have h4 : r.expense_amount = a := congrArg NormRecord.expense_amount h3
      exact hne h4.symm
    refine ⟨hkey, ?_⟩
    unfold lookupResponseStrict writeResponse
    simp only [hstore, List.filter_nil]
    rw [List.find?_cons_of_neg, List.find?_nil]
    · rfl
    · simp only [respLive, Bool.and_eq_true, decide_eq_true_eq, not_and]
      exact fun hh _ => hkey hh.symm

/-- C1 witness: on a concretely populated one-entry store, changing the
single monetary amount of the only context record turns the strict lookup
into a miss. -/
theorem C1_strict_lookup_iff_witness :
    responseKey "coffee"
        ([({ expense_id := "1", description := "latte", merchant := "Starbucks"
             expense_amount := 452, shopping_type := some "Restaurants"
             payment_method := some "credit", similarity_score := none } :
            ExpenseRecord)].set 0
          { expense_id := "1", description := "latte", merchant := "Starbucks"
            expense_amount := 999, shopping_type := some "Restaurants"
            payment_method := some "credit", similarity_score := none }) "watsonx" ≠
        responseKey "coffee"
          [{ expense_id := "1", description := "latte", merchant := "Starbucks"
             expense_amount := 452, shopping_type := some "Restaurants"
             payment_method := some "credit", similarity_score := none }] "watsonx" ∧
      lookupResponseStrict
          (writeResponse emptyState "coffee" "You spent $4.52"
            [{ expense_id := "1", description := "latte", merchant := "Starbucks"
               expense_amount := 452, shopping_type := some "Restaurants"
               payment_method := some "credit", similarity_score := none }] "watsonx" 100 50)
          "coffee"
          ([({ expense_id := "1", description := "latte", merchant := "Starbucks"
               expense_amount := 452, shopping_type := some "Restaurants"
               payment_method := some "credit", similarity_score := none } :
              ExpenseRecord)].set 0
            { expense_id := "1", description := "latte", merchant := "Starbucks"
              expense_amount := 999, shopping_type := some "Restaurants"
              payment_method := some "credit", similarity_score := none }) "watsonx" = none :=
  C1_strict_lookup_iff.2 emptyState "coffee" "You spent $4.52" _ "watsonx" 100 50 0
    { expense_id := "1", description := "latte", merchant := "Starbucks"
      expense_amount := 452, shopping_type := some "Restaurants"
      payment_method := some "credit", similarity_score := none } 999
    rfl rfl (by decide)

/-- C3: a storage-layer error inside the cache is caught internally and
treated as a miss on read and a no-op on write; the caller's `RAG_response`
request still completes with the freshly generated result even when both
cache operations fail, and the embedding-cache status probe of
`search_expenses_with_cache_info` reports a storage error as a miss. -/
theorem C3_storage_errors_downgraded :
    (∀ (st : CacheState) (msg p : String) (ctx : List ExpenseRecord) (prov : String),
      get_cached_response st (some msg) p ctx prov = none)
    ∧ (∀ (st : CacheState) (msg p resp : String) (ctx : List ExpenseRecord)
        (prov : String) (pt rt : ℕ),
      cache_response st (some msg) p resp ctx prov pt rt = st)
    ∧ (∀ (st : CacheState) (lf wf p : String) (results : List ExpenseRecord)
        (enhanced resp : String),
      (RAG_responseRun st ⟨some lf, some wf⟩ p results enhanced (.ok resp)).result =
          .ok resp ∧
        (RAG_responseRun st ⟨some lf, some wf⟩ p results enhanced (.ok resp)).state = st)
    ∧ (∀ msg : String, embeddingCacheStatus (.error msg) = "miss") := by
  refine ⟨fun _ _ _ _ _ => rfl, fun _ _ _ _ _ _ _ _ => rfl, ?_, fun _ => rfl⟩
  intro st lf wf p results enhanced resp
  have hcached : get_cached_response st (some lf) p results "watsonx" = none := rfl
  refine ⟨?_, ?_⟩ <;>
    simp [RAG_responseRun, hcached, truthyStr, cache_response]

/-- After `writeEmbedding`, the written entry is the first live match for
its key at the same time. -/
theorem find?_writeEmbedding_self (st : CacheState) (k : String) (v : Vec) (n : ℕ)
    (hn : n = st.now) :
    (writeEmbedding st k v).embStore.find? (embLive n k) =
      some { key := k, vec := v, created_at := st.now, expires_at := st.now + st.ttl } := by
  subst hn
  rw [writeEmbedding_embStore]
  apply List.find?_cons_of_pos
  simp [embLive]

/-- C7: two successive `getOrComputeEmbedding` calls on the same text (with
no intervening expiry: time does not advance between the calls) return
identical vectors, and the second call is recorded as an embedding-cache
hit. -/
theorem C7_embedding_getOrCompute_stable (st : CacheState) (embed : String → Vec)
    (t : String) :
    (getOrComputeEmbedding (getOrComputeEmbedding st embed t).2 embed t).1 =
        (getOrComputeEmbedding st embed t).1 ∧
      (getOrComputeEmbedding (getOrComputeEmbedding st embed t).2 embed t).2.embStats.hits =
        (getOrComputeEmbedding st embed t).2.embStats.hits + 1 := by
  cases h : st.embStore.find? (embLive st.now (normalizeText t)) with
  | some e =>
      have h1 : getOrComputeEmbedding st embed t = (e.vec, recordEmbHit st) := by
        unfold getOrComputeEmbedding
        rw [h]
      have h2 : getOrComputeEmbedding (recordEmbHit st) embed t =
          (e.vec, recordEmbHit (recordEmbHit st)) := by
        unfold getOrComputeEmbedding
        rw [recordEmbHit_embStore, recordEmbHit_now, h]
      rw [h1, h2]
      exact ⟨rfl, rfl⟩
  | none =>
      have h1 : getOrComputeEmbedding st embed t =
          (embed t, writeEmbedding (recordEmbMiss st) (normalizeText t) (embed t)) := by
        unfold getOrComputeEmbedding
        rw [h]
      have h2 : getOrComputeEmbedding
            (writeEmbedding (recordEmbMiss st) (normalizeText t) (embed t)) embed t =
          (embed t,
            recordEmbHit (writeEmbedding (recordEmbMiss st) (normalizeText t) (embed t))) := by
        unfold getOrComputeEmbedding
        rw [writeEmbedding_now, recordEmbMiss_now,
          find?_writeEmbedding_self (recordEmbMiss st) (normalizeText t) (embed t) st.now rfl]
      rw [h1, h2]
      exact ⟨rfl, rfl⟩

/-- One `getOrComputeEmbedding` call records exactly one outcome (a hit or
a miss) for the embedding cache. -/
theorem getOrComputeEmbedding_count (st : CacheState) (embed : String → Vec)
    (t : String) :
    (getOrComputeEmbedding st embed t).2.embStats.hits +
        (getOrComputeEmbedding st embed t).2.embStats.misses =
      st.embStats.hits + st.embStats.misses + 1 := by
  cases h : st.embStore.find? (embLive st.now (normalizeText t)) with
  | some e =>
      have h1 : getOrComputeEmbedding st embed t = (e.vec, recordEmbHit st) := by
        unfold getOrComputeEmbedding
        rw [h]
      rw [h1]
      simp only [recordEmbHit_hits, recordEmbHit_misses]
      omega
  | none =>
      have h1 : getOrComputeEmbedding st embed t =
          (embed t, writeEmbedding (recordEmbMiss st) (normalizeText t) (embed t)) := by
        unfold getOrComputeEmbedding
        rw [h]
      rw [h1]
      simp only [writeEmbedding_hits, writeEmbedding_misses, recordEmbMiss_hits,
        recordEmbMiss_misses]
      omega

/-- C6: the per-type hit rate is `hits / (hits + misses)`, is 0 when the
denominator is 0, and always lies in [0,1]; a sequence of `N`
embedding-cache lookups adds exactly `N` to that type's `hits + misses`;
and the endpoint's `total_requests` is the sum of `hits + misses` over the
three cache types. -/
theorem C6_stats_invariants :
    (∀ s : TypeStats,
      (0 ≤ hitRate s ∧ hitRate s ≤ 1) ∧
        (s.hits + s.misses = 0 → hitRate s = 0) ∧
        (s.hits + s.misses ≠ 0 →
          hitRate s = (s.hits : ℚ) / ((s.hits : ℚ) + (s.misses : ℚ))))
    ∧ (∀ (embed : String → Vec) (st : CacheState) (ts : List String),
      (runEmbeddingLookups embed st ts).embStats.hits +
          (runEmbeddingLookups embed st ts).embStats.misses =
        st.embStats.hits + st.embStats.misses + ts.length)
    ∧ (∀ r : CacheStatsReport,
      (cacheStatsResponse r).total_requests =
        (r.embedding.hits + r.embedding.misses) +
          (r.vector_search.hits + r.vector_search.misses) +
          (r.response.hits + r.response.misses)) := by
  refine ⟨?_, ?_, fun _ => rfl⟩
  · intro s
    refine ⟨?_, fun h => by simp [hitRate, h], fun h => by simp [hitRate, h]⟩
    unfold hitRate
    by_cases h : s.hits + s.misses = 0
    · simp [h]
    · have hpos : (0 : ℚ) < (s.hits : ℚ) + (s.misses : ℚ) := by
        have : 0 < s.hits + s.misses := Nat.pos_of_ne_zero h
        exact_mod_cast this
      rw [if_neg h]
      constructor
      · positivity
      · rw [div_le_one hpos]
        exact le_add_of_nonneg_right (by positivity)
  · intro embed st ts
    induction ts generalizing st with
    | nil => simp [runEmbeddingLookups]
    | cons t ts ih =>
        rw [runEmbeddingLookups, ih, getOrComputeEmbedding_count]
        simp only [List.length_cons]
        omega

/-- C6 witness: at the all-zero counters the hit rate is 0, and three
concrete embedding lookups on the empty state record three outcomes. -/
theorem C6_stats_invariants_witness :
    hitRate TypeStats.zero = 0 ∧
      (runEmbeddingLookups (fun _ => [1]) emptyState ["a", "b", "a"]).embStats.hits +
          (runEmbeddingLookups (fun _ => [1]) emptyState ["a", "b", "a"]).embStats.misses =
        emptyState.embStats.hits + emptyState.embStats.misses + 3 :=
  ⟨(C6_stats_invariants.1 TypeStats.zero).2.1 rfl,
    C6_stats_invariants.2.1 (fun _ => [1]) emptyState ["a", "b", "a"]⟩

/-- C10: the `/cache-stats` endpoint reports
`estimated_cost_savings_usd = round(total_tokens_saved * 0.00002, 4)`;
equivalently, the rounded value of `total_tokens_saved / 5` in units of
`10^-4` dollars.  (`total_tokens_saved / 5` is never a half-integer, so
every nearest-rounding convention, Python's included, agrees here.) -/
theorem C10_cost_savings_formula (r : CacheStatsReport) :
    (cacheStatsResponse r).estimated_cost_savings_usd =
        roundToPlaces 4 ((r.total_tokens_saved : ℚ) * (2 / 100000)) ∧
      (cacheStatsResponse r).estimated_cost_savings_usd =
        ((round ((r.total_tokens_saved : ℚ) / 5) : ℤ) : ℚ) / 10000 := by
  refine ⟨rfl, ?_⟩
  show roundToPlaces 4 ((r.total_tokens_saved : ℚ) * (2 / 100000)) = _
  unfold roundToPlaces
  norm_num
  rw [show (r.total_tokens_saved : ℚ) * (1 / 50000) * 10000 =
      (r.total_tokens_saved : ℚ) / 5 by ring]

/-- `nearestVec` finds an entry exactly on non-empty lists. -/
theorem nearestVec_eq_none_iff (q : Vec) (l : List VectorEntry) :
    nearestVec q l = none ↔ l = [] := by
  cases l with
  | nil => simp [nearestVec]
  | cons a as =>
      simp only [nearestVec]
      cases nearestVec q as
      · simp
      · dsimp only
        split <;> simp

/-- The entry found by `nearestVec` is in the list and has minimal distance
to the query among all entries of the list. -/
theorem nearestVec_min (q : Vec) (l : List VectorEntry) (e : VectorEntry)
    (h : nearestVec q l = some e) :
    e ∈ l ∧ ∀ b ∈ l, embDistance e.emb q ≤ embDistance b.emb q := by
  induction l generalizing e with
  | nil => simp [nearestVec] at h
  | cons a as ih =>
      rw [nearestVec] at h
      cases has : nearestVec q as with
      | none =>
          rw [has] at h
          dsimp only at h
          cases h
          have hnil : as = [] := (nearestVec_eq_none_iff q as).mp has
          subst hnil
          refine ⟨List.mem_cons_self _ _, ?_⟩
          intro b hb
          rcases List.mem_singleton.mp hb with rfl
          exact le_refl _
      | some c =>
          rw [has] at h
          dsimp only at h
          obtain ⟨hcmem, hcmin⟩ := ih c has
          by_cases hb : betterVec q a c
          · rw [if_pos hb] at h
            cases h
            have hac : embDistance a.emb q ≤ embDistance c.emb q := by
              simp only [betterVec, Bool.or_eq_true, Bool.and_eq_true,
                decide_eq_true_eq] at hb
              rcases hb with h1 | ⟨h2, _⟩
              · exact le_of_lt h1
              · exact le_of_eq h2
            refine ⟨List.mem_cons_self _ _, ?_⟩
            intro b hbm
            rcases List.mem_cons.mp hbm with rfl | hbm
            · exact le_refl _
            · exact le_trans hac (hcmin b hbm)
          · rw [if_neg hb] at h
            cases h
            refine ⟨List.mem_cons_of_mem _ hcmem, ?_⟩
            intro b hbm
            rcases List.mem_cons.mp hbm with rfl | hbm
            · simp only [betterVec, Bool.or_eq_true, Bool.and_eq_true,
                decide_eq_true_eq, not_or, not_and] at hb
              exact le_of_not_lt hb.1
            · exact hcmin b hbm

/-- C5: the vector-search cache lookup is a hit exactly when the nearest
live stored embedding is within `similarity_threshold` and the entry holds
at least `limit` results; on a hit the returned list is that entry's stored
ranked result list truncated to its first `limit` elements (so at most
`limit` results are ever returned); and the nearest entry really is a
minimum-distance live entry. -/
theorem C5_vector_lookup_semantics (st : CacheState) (q : Vec) (limit : ℕ) :
    ((lookupVectorSearch st q limit).isSome ↔
      ∃ e, nearestVec q (liveVecEntries st) = some e ∧
        embDistance e.emb q ≤ st.threshold ∧ limit ≤ e.results.length)
    ∧ (∀ e rs, nearestVec q (liveVecEntries st) = some e →
        lookupVectorSearch st q limit = some rs →
        rs = e.results.take limit ∧ rs.length ≤ limit)
    ∧ (∀ e, nearestVec q (liveVecEntries st) = some e →
        e ∈ liveVecEntries st ∧
          ∀ b ∈ liveVecEntries st, embDistance e.emb q ≤ embDistance b.emb q) := by
  refine ⟨⟨?_, ?_⟩, ?_, fun e he => nearestVec_min q _ e he⟩
  · intro hs
    unfold lookupVectorSearch at hs
    cases hn : nearestVec q (liveVecEntries st) with
    | none => rw [hn] at hs; simp at hs
    | some e =>
        rw [hn] at hs
        dsimp only at hs
        by_cases hc : embDistance e.emb q ≤ st.threshold ∧ limit ≤ e.results.length
        · exact ⟨e, rfl, hc⟩
        · rw [if_neg hc] at hs; simp at hs
  · rintro ⟨e, he, hdist, hlen⟩
    unfold lookupVectorSearch
    rw [he]
    dsimp only
    rw [if_pos ⟨hdist, hlen⟩]
    rfl
  · intro e rs he hrs
    unfold lookupVectorSearch at hrs
    rw [he] at hrs
    dsimp only at hrs
    by_cases hc : embDistance e.emb q ≤ st.threshold ∧ limit ≤ e.results.length
    · rw [if_pos hc] at hrs
      cases hrs
      exact ⟨rfl, List.length_take_le _ _⟩
    · rw [if_neg hc] at hrs
      cases hrs

/-- A sample expense row used by concrete witnesses. -/
def sampleRecord : ExpenseRecord :=
  { expense_id := "1", description := "latte", merchant := "Starbucks"
    expense_amount := 452, shopping_type := some "Restaurants"
    payment_method := some "credit", similarity_score := none }

/-- A sample vector-search cache entry holding one result at distance 0
from the query `[0]`. -/
def sampleVecEntry : VectorEntry :=
  { emb := [0], results := [sampleRecord], thresholdAtWrite := 3 / 4
    created_at := 0, expires_at := 24 }

/-- A cache state holding just the sample vector-search entry. -/
def sampleVecState : CacheState :=
  { emptyState with vecStore := [sampleVecEntry] }

/-- On the sample state, the lookup at the stored embedding with limit 1
is a hit returning the stored single-result list. -/
theorem sample_lookup_eq :
    lookupVectorSearch sampleVecState [0] 1 = some [sampleRecord] := by
  unfold lookupVectorSearch
  rw [show nearestVec [0] (liveVecEntries sampleVecState) = some sampleVecEntry from rfl]
  dsimp only
  rw [if_pos]
  · rfl
  · refine ⟨?_, by decide⟩
    show embDistance sampleVecEntry.emb [0] ≤ sampleVecState.threshold
    norm_num [embDistance, sampleVecEntry, sampleVecState, emptyState]

/-- C5 witness: on the one-entry sample state the lookup at the stored
embedding with limit 1 is a hit and returns the stored list truncated to
one element. -/
theorem C5_vector_lookup_semantics_witness :
    [sampleRecord] = sampleVecEntry.results.take 1 ∧ [sampleRecord].length ≤ 1 :=
  (C5_vector_lookup_semantics sampleVecState [0] 1).2.1 sampleVecEntry [sampleRecord]
    rfl sample_lookup_eq

/-- A successful fallible embedding lookup only touches the embedding store
and its stats. -/
theorem getOrComputeEmbeddingE_ok_fields (st : CacheState)
    (embed : String → Except String Vec) (t : String) (v : Vec) (st1 : CacheState)
    (h : getOrComputeEmbeddingE st embed t = .ok (v, st1)) :
    st1.vecStore = st.vecStore ∧ st1.respStore = st.respStore ∧ st1.now = st.now ∧
      st1.threshold = st.threshold ∧ st1.ttl = st.ttl := by
  unfold getOrComputeEmbeddingE at h
  cases hf : st.embStore.find? (embLive st.now (normalizeText t)) with
  | some e =>
      rw [hf] at h
      dsimp only at h
      simp only [Except.ok.injEq, Prod.mk.injEq] at h
      rw [← h.2]
      exact ⟨rfl, rfl, rfl, rfl, rfl⟩
  | none =>
      rw [hf] at h
      dsimp only at h
      cases he : embed t with
      | error msg => rw [he] at h; simp at h
      | ok v' =>
          rw [he] at h
          simp only [Except.ok.injEq, Prod.mk.injEq] at h
          rw [← h.2]
          exact ⟨rfl, rfl, rfl, rfl, rfl⟩

/-- After a successful fallible embedding lookup, repeating it from any
state with the same embedding store and the same clock is a hit returning
the same vector. -/
theorem getOrComputeEmbeddingE_stable (st st' : CacheState)
    (embed : String → Except String Vec) (t : String) (v : Vec) (st1 : CacheState)
    (h : getOrComputeEmbeddingE st embed t = .ok (v, st1))
    (hs : st'.embStore = st1.embStore) (hn : st'.now = st.now) :
    getOrComputeEmbeddingE st' embed t = .ok (v, recordEmbHit st') := by
  unfold getOrComputeEmbeddingE at h ⊢
  cases hf : st.embStore.find? (embLive st.now (normalizeText t)) with
  | some e =>
      rw [hf] at h
      dsimp only at h
      simp only [Except.ok.injEq, Prod.mk.injEq] at h
      obtain ⟨hv, hst⟩ := h
      have hse : st'.embStore = st.embStore := by
        rw [hs, ← hst, recordEmbHit_embStore]
      rw [hse, hn, hf]
      dsimp only
      rw [hv]
  | none =>
      rw [hf] at h
      dsimp only at h
      cases he : embed t with
      | error msg => rw [he] at h; simp at h
      | ok v' =>
          rw [he] at h
          simp only [Except.ok.injEq, Prod.mk.injEq] at h
          obtain ⟨hv, hst⟩ := h
          rw [hs, ← hst, hn,
            find?_writeEmbedding_self (recordEmbMiss st) (normalizeText t) v' st.now rfl]
          dsimp only
          rw [hv]

/-- The vector-search lookup only reads the vector store, the clock and the
threshold. -/
theorem lookupVectorSearch_congr (st st' : CacheState) (q : Vec) (limit : ℕ)
    (h1 : st'.vecStore = st.vecStore) (h2 : st'.now = st.now)
    (h3 : st'.threshold = st.threshold) :
    lookupVectorSearch st' q limit = lookupVectorSearch st q limit := by
  unfold lookupVectorSearch liveVecEntries
  rw [h1, h2, h3]

/-- On a vector-search cache miss with an empty database answer, one
`search_expenses` run returns the empty list, queries the database, writes
nothing to the vector store, and only bumps stats. -/
theorem search_expensesRun_zero_rows (st : CacheState)
    (embed : String → Except String Vec) (query : String) (limit : ℕ) (v : Vec)
    (st1 : CacheState)
    (hE : getOrComputeEmbeddingE st embed query = .ok (v, st1))
    (hmiss : lookupVectorSearch st1 v limit = none) :
    search_expensesRun st embed (.ok []) query limit =
      { result := .ok [], state := recordVecMiss st1, vecCacheHit := false
        dbQueried := true } := by
  unfold search_expensesRun
  rw [hE]
  dsimp only
  have hg : get_cached_vector_search st1 v limit = (none, recordVecMiss st1) := by
    unfold get_cached_vector_search
    rw [hmiss]
  rw [hg]
  rfl

/-- C9: `search_expenses` writes to the vector-search cache only when the
database query returned rows: when the vector search yields zero rows (and
the cache missed), no cache entry is created, the vector store is
unchanged, and a repetition of the query again misses the vector-search
cache and re-executes the database search. -/
theorem C9_zero_rows_not_cached (st : CacheState)
    (embed : String → Except String Vec) (query : String) (limit : ℕ) (v : Vec)
    (st1 : CacheState)
    (hE : getOrComputeEmbeddingE st embed query = .ok (v, st1))
    (hmiss : lookupVectorSearch st1 v limit = none) :
    (search_expensesRun st embed (.ok []) query limit).result = .ok [] ∧
      (search_expensesRun st embed (.ok []) query limit).dbQueried = true ∧
      (search_expensesRun st embed (.ok []) query limit).vecCacheHit = false ∧
      (search_expensesRun st embed (.ok []) query limit).state.vecStore = st.vecStore ∧
      (search_expensesRun (search_expensesRun st embed (.ok []) query limit).state
          embed (.ok []) query limit).dbQueried = true ∧
      (search_expensesRun (search_expensesRun st embed (.ok []) query limit).state
          embed (.ok []) query limit).vecCacheHit = false ∧
      (search_expensesRun (search_expensesRun st embed (.ok []) query limit).state
          embed (.ok []) query limit).state.vecStore = st.vecStore := by
  obtain ⟨hvec, hresp, hnow, hthr, httl⟩ :=
    getOrComputeEmbeddingE_ok_fields st embed query v st1 hE
  have hrun1 := search_expensesRun_zero_rows st embed query limit v st1 hE hmiss
  have hE2 : getOrComputeEmbeddingE (recordVecMiss st1) embed query =
      .ok (v, recordEmbHit (recordVecMiss st1)) :=
    getOrComputeEmbeddingE_stable st (recordVecMiss st1) embed query v st1 hE
      (recordVecMiss_embStore st1) (by rw [recordVecMiss_now, hnow])
  have hmiss2 : lookupVectorSearch (recordEmbHit (recordVecMiss st1)) v limit = none := by
    rw [lookupVectorSearch_congr (recordVecMiss st1) (recordEmbHit (recordVecMiss st1)) v
        limit rfl rfl rfl]
    rw [lookupVectorSearch_congr st1 (recordVecMiss st1) v limit rfl rfl rfl]
    exact hmiss
  have hrun2 := search_expensesRun_zero_rows (recordVecMiss st1) embed query limit v
    (recordEmbHit (recordVecMiss st1)) hE2 hmiss2
  rw [hrun1]
  refine ⟨rfl, rfl, rfl, by rw [recordVecMiss_vecStore, hvec], ?_, ?_, ?_⟩ <;>
    rw [hrun2]
  rw [recordVecMiss_vecStore, recordEmbHit_vecStore, recordVecMiss_vecStore, hvec]

/-- C9 witness: on the empty state a query whose database search returns
zero rows leaves the vector store empty and queries the database again on
repetition. -/
theorem C9_zero_rows_not_cached_witness :
    (search_expensesRun emptyState (fun _ => .ok [1]) (.ok []) "q" 5).result = .ok [] ∧
      (search_expensesRun emptyState (fun _ => .ok [1]) (.ok []) "q" 5).dbQueried = true ∧
      (search_expensesRun emptyState (fun _ => .ok [1]) (.ok []) "q" 5).vecCacheHit =
          false ∧
      (search_expensesRun emptyState (fun _ => .ok [1]) (.ok []) "q" 5).state.vecStore =
          emptyState.vecStore ∧
      (search_expensesRun
          (search_expensesRun emptyState (fun _ => .ok [1]) (.ok []) "q" 5).state
          (fun _ => .ok [1]) (.ok []) "q" 5).dbQueried = true ∧
      (search_expensesRun
          (search_expensesRun emptyState (fun _ => .ok [1]) (.ok []) "q" 5).state
          (fun _ => .ok [1]) (.ok []) "q" 5).vecCacheHit = false ∧
      (search_expensesRun
          (search_expensesRun emptyState (fun _ => .ok [1]) (.ok []) "q" 5).state
          (fun _ => .ok [1]) (.ok []) "q" 5).state.vecStore = emptyState.vecStore :=
  C9_zero_rows_not_cached emptyState (fun _ => .ok [1]) "q" 5 [1]
    (writeEmbedding (recordEmbMiss emptyState) (normalizeText "q") [1]) rfl rfl

/-- C2 counterexample: with an empty cache, a language-model failure
`"boom"` is not propagated unchanged by `RAG_response`: the call returns
normally with an apology message instead of raising. -/
theorem C2_no_propagation_counterexample :
    (RAG_responseRun emptyState Faults.none "hi" [] (enhancedPromptNoResults "hi")
        (.error "boom")).result = .ok (apologyMessage "boom") ∧
      (RAG_responseRun emptyState Faults.none "hi" [] (enhancedPromptNoResults "hi")
          (.error "boom")).result ≠ .error "boom" := by
  constructor
  · rfl
  · intro h
    rw [show (RAG_responseRun emptyState Faults.none "hi" []
        (enhancedPromptNoResults "hi") (.error "boom")).result =
      .ok (apologyMessage "boom") from rfl] at h
    exact Except.noConfusion h

/-- C2 (amended): an embedding-model failure in `search_expenses`
propagates to the caller unchanged and caches nothing; but a vector-store
failure is caught inside `search_expenses`, which returns an empty list
(with no vector-search entry cached), and a language-model failure is
caught inside `RAG_response`, which returns an apology message naming the
error (with nothing cached). -/
theorem C2_upstream_failure_handling :
    (∀ (st : CacheState) (embed : String → Except String Vec)
        (db : Except String (List ExpenseRecord)) (query : String) (limit : ℕ)
        (msg : String),
      getOrComputeEmbeddingE st embed query = .error msg →
      search_expensesRun st embed db query limit =
        { result := .error msg, state := st, vecCacheHit := false, dbQueried := false })
    ∧ (∀ (st : CacheState) (embed : String → Except String Vec) (query : String)
        (limit : ℕ) (v : Vec) (st1 : CacheState) (msg : String),
      getOrComputeEmbeddingE st embed query = .ok (v, st1) →
      lookupVectorSearch st1 v limit = none →
      (search_expensesRun st embed (.error msg) query limit).result = .ok [] ∧
        (search_expensesRun st embed (.error msg) query limit).state.vecStore =
            st.vecStore ∧
        (search_expensesRun st embed (.error msg) query limit).state.respStore =
            st.respStore)
    ∧ (∀ (st : CacheState) (f : Faults) (prompt : String)
        (results : List ExpenseRecord) (enhanced msg : String),
      truthyStr (get_cached_response st f.lookupFault prompt results "watsonx") = false →
      RAG_responseRun st f prompt results enhanced (.error msg) =
        { result := .ok (apologyMessage msg), state := st, cacheHit := false }) := by
  refine ⟨?_, ?_, ?_⟩
  · intro st embed db query limit msg hE
    unfold search_expensesRun
    rw [hE]
  · intro st embed query limit v st1 msg hE hmiss
    obtain ⟨hvec, hresp, _, _, _⟩ := getOrComputeEmbeddingE_ok_fields st embed query v st1 hE
    have hrun : search_expensesRun st embed (.error msg) query limit =
        { result := .ok [], state := recordVecMiss st1, vecCacheHit := false
          dbQueried := true } := by
      unfold search_expensesRun
      rw [hE]
      dsimp only
      have hg : get_cached_vector_search st1 v limit = (none, recordVecMiss st1) := by
        unfold get_cached_vector_search
        rw [hmiss]
      rw [hg]
      rfl
    rw [hrun]
    exact ⟨rfl, by rw [recordVecMiss_vecStore, hvec],
      by show (recordVecMiss st1).respStore = st.respStore; rw [← hresp]; rfl⟩
  · intro st f prompt results enhanced msg hmiss
    unfold RAG_responseRun
    dsimp only
    rw [hmiss]
    rfl

/-- C2 witness: on the empty cache with no storage faults, a concrete
language-model failure is turned into the apology message and the state is
unchanged. -/
theorem C2_upstream_failure_handling_witness :
    RAG_responseRun emptyState Faults.none "hello" [] "x" (.error "down") =
      { result := .ok (apologyMessage "down"), state := emptyState, cacheHit := false } :=
  C2_upstream_failure_handling.2.2 emptyState Faults.none "hello" [] "x" "down" rfl

/-- C8 counterexample: for the concrete run with user prompt `"hi"`, no
context records and response `"All good here"`, the stored prompt-token
count is 42 — the estimate of the enhanced prompt sent to the model — while
the integer part of (word count multiplied by 1.3) of the prompt text `"hi"` stored
with the entry is 1. -/
theorem C8_prompt_tokens_counterexample :
    ((RAG_responseRun emptyState Faults.none "hi" [] (enhancedPromptNoResults "hi")
          (.ok "All good here")).state.respStore.head?.map
        (fun e => e.prompt_tokens)) = some 42 ∧
      tokenEstimate "hi" = 1 ∧ (42 : ℕ) ≠ 1 :=
  ⟨by decide, by decide, by decide⟩

/-- C8 (amended): whenever a freshly generated response is written to the
response cache by `RAG_response`, the stored prompt-token count equals the
integer part of (whitespace-separated word count multiplied by 1.3) of the full
enhanced prompt sent to the language model (not of the raw user prompt),
and the stored response-token count equals the same estimate of the
response text. -/
theorem C8_token_estimates_stored (st : CacheState) (f : Faults) (prompt : String)
    (results : List ExpenseRecord) (enhanced response : String)
    (hmiss : truthyStr (get_cached_response st f.lookupFault prompt results "watsonx") =
      false)
    (hwf : f.writeFault = Option.none) (hresp : response.isEmpty = false) :
    (RAG_responseRun st f prompt results enhanced (.ok response)).state.respStore.head? =
      some { key := responseKey prompt results "watsonx", response := response
             prompt_tokens := tokenEstimate enhanced
             response_tokens := tokenEstimate response
             created_at := st.now, expires_at := st.now + st.ttl } := by
  unfold RAG_responseRun
  dsimp only
  rw [hmiss, if_neg Bool.false_ne_true]
  dsimp only
  rw [hresp, if_neg Bool.false_ne_true, hwf]
  show (writeResponse st prompt response results "watsonx" (tokenEstimate enhanced)
      (tokenEstimate response)).respStore.head? = _
  unfold writeResponse
  rfl

/-- C8 witness: a concrete fresh write stores the estimates of the enhanced
prompt and of the response text. -/
theorem C8_token_estimates_stored_witness :
    (RAG_responseRun emptyState Faults.none "hi" []
        (enhancedPromptNoResults "hi") (.ok "All good here")).state.respStore.head? =
      some { key := responseKey "hi" [] "watsonx", response := "All good here"
             prompt_tokens := tokenEstimate (enhancedPromptNoResults "hi")
             response_tokens := tokenEstimate "All good here"
             created_at := emptyState.now, expires_at := emptyState.now + emptyState.ttl } :=
  C8_token_estimates_stored emptyState Faults.none "hi" [] (enhancedPromptNoResults "hi")
    "All good here" rfl rfl rfl


end Banko
